import Mathlib

/-!
# The DMA serial driver `hal::Serial`

A shallow embedding of `private_src/Serial.cpp` / `private_src/Serial.h`.

* The driver object is the structure `hal.Serial`; every member function is
  a function on it that also yields the list of calls made to the
  collaborators (GPIO, DMA, HAL, interrupt controller, semaphores, mutex),
  in program order.
* A blocking call is run against the list of receive events that fire while
  the caller sleeps, each given by the number of bytes arrived; a call that
  sleeps forever yields a `blocked_*` outcome, and a write through a null
  pointer ends the run.
* Interleavings of several threads and the interrupt handlers are the runs of
  the step function `hal.Sched.step`, one step per statement of `Read` /
  `Write`.
-/

namespace hal

/-! ## Collaborator vocabulary

Only the enumerators the driver names are listed. -/

/-- The pins `InitializeGpio` opens. -/
inductive GpioPin where
  | PA9
  | PA10
deriving DecidableEq, Repr

/-- The alternate-function names `InitializeGpio` passes. -/
inductive GpioAlternateFunction where
  | af_push_pull
  | af_input
deriving DecidableEq, Repr

/-- `bsp::IGpioPinPullMode`. -/
inductive IGpioPinPullMode where
  | PullUp
deriving DecidableEq, Repr

/-- `bsp::IGpioPinDriver`. -/
inductive IGpioPinDriver where
  | PushPull
deriving DecidableEq, Repr

/-- The DMA channels of the driver: 4 transmits, 5 receives. -/
inductive DmaChannel where
  | dma1_channel4
  | dma1_channel5
deriving DecidableEq, Repr

/-- `bsp::IDmaOptions_Direction`. -/
inductive IDmaOptions_Direction where
  | MemoryToPeripheral
  | PeripheralToMemory
deriving DecidableEq, Repr

/-- `bsp::IDmaOptions_Priority`. -/
inductive IDmaOptions_Priority where
  | Medium
deriving DecidableEq, Repr

/-- The settings `InitializeDma` puts into a `DICreate_DmaOptions()` object. -/
structure DmaOptions where
  Direction : IDmaOptions_Direction
  MemoryDataAlignment : Nat
  MemoryIncrement : Bool
  PeripheralDataAlignment : Nat
  PeripheralIncrement : Bool
  Priority : IDmaOptions_Priority
deriving DecidableEq, Repr

/-- The three interrupt lines of the driver. -/
inductive IRQn_Type where
  | USART1_IRQn
  | DMA1_Channel4_IRQn
  | DMA1_Channel5_IRQn
deriving DecidableEq, Repr

/-- Modelled from the spec: the caller-supplied options structure
(`SerialOptions.h` is not among the sources): baud rate, word length, parity
and stop bits. The driver only copies it into the handle. -/
structure SerialOptions where
  BaudRate : Nat
  WordLength : Nat
  Parity : Nat
  StopBits : Nat
deriving DecidableEq, Repr

/-- The two semaphores of the driver. -/
inductive Signal where
  | send_complete
  | receive_complete
deriving DecidableEq, Repr

/-- What a callback slot of the UART handle points to. -/
inductive Callback where
  | null
  | hal_default
  | OnReceiveEventCallback
  | OnSendCompleteCallback
deriving DecidableEq, Repr

/-- What the `Instance` member of the UART handle points to. -/
inductive USART_TypeDef where
  | null
  | USART1
deriving DecidableEq, Repr

/-- What the half-transfer slot of the receive DMA handle points to. -/
inductive HalfCallback where
  | null
  | hal_rx_half_complete
deriving DecidableEq, Repr

/-- The largest `uint16_t`. -/
def UINT16_MAX : Int := 65535

/-- Conversion of an `int32_t` argument to the `uint16_t` size parameter of
`HAL_UARTEx_ReceiveToIdle_DMA` and `HAL_UART_Transmit_DMA`. -/
def toUInt16 (count : Int) : Int := count % 65536

/-- One call to a collaborator. Addresses are integers (`buffer + offset`),
sizes are the `uint16_t` the HAL receives. -/
inductive Action where
  | OpenAsAlternateFunctionMode (pin : GpioPin) (mode : GpioAlternateFunction)
      (pull : IGpioPinPullMode) (driver : IGpioPinDriver)
  | DmaOpen (channel : DmaChannel) (options : DmaOptions)
  | RCC_USART1_CLK_ENABLE
  | Release (signal : Signal)
  | ReleaseFromISR (signal : Signal)
  | Acquire (signal : Signal)
  | HAL_UART_Init (options : SerialOptions)
  | SetRxEventCallback (cb : Callback)
  | SetTxCpltCallback (cb : Callback)
  | AddIsr (irq : IRQn_Type)
  | EnableInterrupt (irq : IRQn_Type) (priority : Nat)
  | DisableInterrupt (irq : IRQn_Type)
  | Lock
  | Unlock
  | DisableGlobalInterrupt
  | EnableGlobalInterrupt
  | HAL_UARTEx_ReceiveToIdle_DMA (address : Int) (size : Int)
  | SetXferHalfCpltCallback (cb : HalfCallback)
  | HAL_UART_Transmit_DMA (address : Int) (size : Int)
  | HAL_UART_DMAStop
  | DmaClose (channel : DmaChannel)
deriving DecidableEq, Repr

/-! ## Synchronisation primitives -/

/-- Modelled from the spec: the binary semaphore (`bsp::IBinarySemaphore` is
not among the sources), a counting-to-1 signal. It is created unsignalled. -/
structure IBinarySemaphore where
  signalled : Bool
deriving DecidableEq, Repr

/-- Modelled from the spec: `DICreate_BinarySemaphore()`. -/
def DICreate_BinarySemaphore : IBinarySemaphore := ⟨false⟩

/-- Modelled from the spec: `Release` signals; a second signal is not
counted. -/
def IBinarySemaphore.Release (_b : IBinarySemaphore) : IBinarySemaphore := ⟨true⟩

/-- Modelled from the spec: `ReleaseFromISR` signals from interrupt context. -/
def IBinarySemaphore.ReleaseFromISR (_b : IBinarySemaphore) : IBinarySemaphore := ⟨true⟩

/-- Modelled from the spec: `Acquire` consumes the signal; `none` when there
is none, in which case the caller sleeps. -/
def IBinarySemaphore.Acquire (b : IBinarySemaphore) : Option IBinarySemaphore :=
  if b.signalled then some ⟨false⟩ else none

/-- Modelled from the spec: the mutual-exclusion lock (`bsp::IMutex` is not
among the sources). -/
structure IMutex where
  locked : Bool
deriving DecidableEq, Repr

/-- Modelled from the spec: `DICreate_Mutex()`. -/
def DICreate_Mutex : IMutex := ⟨false⟩

/-- Modelled from the spec: taking the lock (`base::LockGuard` constructor);
`none` when it is held, in which case the caller sleeps. -/
def IMutex.Lock (m : IMutex) : Option IMutex :=
  if m.locked then none else some ⟨true⟩

/-- Modelled from the spec: giving the lock back (`base::LockGuard`
destructor). -/
def IMutex.Unlock (_m : IMutex) : IMutex := ⟨false⟩

/-! ## The driver object -/

/-- The member of `DMA_HandleTypeDef` the driver writes. -/
structure DMA_HandleTypeDef where
  XferHalfCpltCallback : HalfCallback
deriving DecidableEq, Repr

/-- The members of `UART_HandleTypeDef` the driver reads or writes, and
`RxXferSize`, where the HAL keeps the length of the receive last armed.
`hdmatx` and `hdmarx` are pointers: `none` is the null pointer. -/
structure UART_HandleTypeDef where
  Instance : USART_TypeDef
  Init : SerialOptions
  MspInitCallback : Callback
  RxEventCallback : Callback
  TxCpltCallback : Callback
  RxXferSize : Int
  hdmatx : Option DMA_HandleTypeDef
  hdmarx : Option DMA_HandleTypeDef
deriving DecidableEq, Repr

/-- The data members of `class Serial` (Serial.h, lines 18-22). -/
structure Serial where
  _uart_handle : UART_HandleTypeDef
  _send_complete_signal : IBinarySemaphore
  _receive_complete_signal : IBinarySemaphore
  _read_lock : IMutex
  _current_receive_count : Int
deriving DecidableEq, Repr

/-- The freshly constructed driver: `Serial() = default` with the member
initialisers of Serial.h. `_uart_handle{}` is value-initialised, so its two
DMA pointers are null. -/
def Serial.fresh : Serial :=
  { _uart_handle :=
      { Instance := USART_TypeDef.null
        Init := ⟨0, 0, 0, 0⟩
        MspInitCallback := Callback.null
        RxEventCallback := Callback.null
        TxCpltCallback := Callback.null
        RxXferSize := 0
        hdmatx := none
        hdmarx := none }
    _send_complete_signal := DICreate_BinarySemaphore
    _receive_complete_signal := DICreate_BinarySemaphore
    _read_lock := DICreate_Mutex
    _current_receive_count := 0 }

/-- Modelled from the spec: `HAL_UART_Init` (the HAL is not among the
sources) resets all callbacks of the handle to the defaults. -/
def HAL_UART_Init (h : UART_HandleTypeDef) : UART_HandleTypeDef :=
  { h with
    MspInitCallback := Callback.hal_default
    RxEventCallback := Callback.hal_default
    TxCpltCallback := Callback.hal_default }

/-- Modelled from the spec: `IDmaChannel::Open(options, &_uart_handle)`
(the DMA layer is not among the sources) opens the channel for its owning
hardware handle: it links the channel's DMA handle to the UART handle, as
`hdmatx` for the memory-to-peripheral direction and as `hdmarx` for the
peripheral-to-memory direction. -/
def DmaChannel_Open (options : DmaOptions) (h : UART_HandleTypeDef) : UART_HandleTypeDef :=
  match options.Direction with
  | IDmaOptions_Direction.MemoryToPeripheral =>
    { h with hdmatx := some ⟨HalfCallback.null⟩ }
  | IDmaOptions_Direction.PeripheralToMemory =>
    { h with hdmarx := some ⟨HalfCallback.null⟩ }

/-- Modelled from the spec: arming a receive of `size` bytes with
`HAL_UARTEx_ReceiveToIdle_DMA` (the HAL is not among the sources) records the
length and installs the HAL half-transfer handler on the receive DMA handle
when there is one. What the HAL does with a null `hdmarx` is left open. -/
def HAL_UARTEx_ReceiveToIdle_DMA (h : UART_HandleTypeDef) (size : Int) : UART_HandleTypeDef :=
  { h with
    RxXferSize := size
    hdmarx := h.hdmarx.map
      (fun d => { d with XferHalfCpltCallback := HalfCallback.hal_rx_half_complete }) }

/-- Modelled from the spec: an idle-terminated receive takes up to the armed
number of bytes and completes when the buffer fills or the line goes idle.
With `bytes` bytes arrived when the receive event fires, the position the HAL
reports to `RxEventCallback` is `bytes`, capped by the armed length. -/
def HAL_RxEventPosition (h : UART_HandleTypeDef) (bytes : Nat) : Nat :=
  min bytes h.RxXferSize.toNat

/-! ## Initialisation (Serial.cpp, lines 12-104) -/

/-- `Serial::InitializeGpio()` (lines 12-29): PA9 as push-pull alternate
function output, PA10 as alternate function input, both pulled up. -/
def Serial.InitializeGpio (s : Serial) : Serial × List Action :=
  (s,
    [ Action.OpenAsAlternateFunctionMode GpioPin.PA9 GpioAlternateFunction.af_push_pull
        IGpioPinPullMode.PullUp IGpioPinDriver.PushPull,
      Action.OpenAsAlternateFunctionMode GpioPin.PA10 GpioAlternateFunction.af_input
        IGpioPinPullMode.PullUp IGpioPinDriver.PushPull ])

/-- `Serial::InitializeDma()` (lines 31-56): the transmit channel, then the
receive channel, each opened for `&_uart_handle`. -/
def Serial.InitializeDma (s : Serial) : Serial × List Action :=
  let tx : DmaOptions :=
    { Direction := IDmaOptions_Direction.MemoryToPeripheral
      MemoryDataAlignment := 1
      MemoryIncrement := true
      PeripheralDataAlignment := 1
      PeripheralIncrement := false
      Priority := IDmaOptions_Priority.Medium }
  let s1 := { s with _uart_handle := DmaChannel_Open tx s._uart_handle }
  let rx : DmaOptions :=
    { Direction := IDmaOptions_Direction.PeripheralToMemory
      MemoryDataAlignment := 1
      MemoryIncrement := true
      PeripheralDataAlignment := 1
      PeripheralIncrement := false
      Priority := IDmaOptions_Priority.Medium }
  let s2 := { s1 with _uart_handle := DmaChannel_Open rx s1._uart_handle }
  (s2,
    [ Action.DmaOpen DmaChannel.dma1_channel4 tx,
      Action.DmaOpen DmaChannel.dma1_channel5 rx ])

/-- `Serial::InitializeUart(options)` (lines 58-79): clock enable, the
pre-signal of the send-complete semaphore, the handle members,
`HAL_UART_Init`, and then the two callback assignments. -/
def Serial.InitializeUart (s : Serial) (options : SerialOptions) : Serial × List Action :=
  let s1 := { s with _send_complete_signal := s._send_complete_signal.Release }
  let s2 := { s1 with _uart_handle :=
    { s1._uart_handle with
      Instance := USART_TypeDef.USART1
      Init := options
      MspInitCallback := Callback.null } }
  let s3 := { s2 with _uart_handle := HAL_UART_Init s2._uart_handle }
  let s4 := { s3 with _uart_handle :=
    { s3._uart_handle with RxEventCallback := Callback.OnReceiveEventCallback } }
  let s5 := { s4 with _uart_handle :=
    { s4._uart_handle with TxCpltCallback := Callback.OnSendCompleteCallback } }
  (s5,
    [ Action.RCC_USART1_CLK_ENABLE,
      Action.Release Signal.send_complete,
      Action.HAL_UART_Init options,
      Action.SetRxEventCallback Callback.OnReceiveEventCallback,
      Action.SetTxCpltCallback Callback.OnSendCompleteCallback ])

/-- `Serial::InitializeInterrupt()` (lines 81-104): registers the three
handlers, then enables the three lines at priority 10. -/
def Serial.InitializeInterrupt (s : Serial) : Serial × List Action :=
  (s,
    [ Action.AddIsr IRQn_Type.USART1_IRQn,
      Action.AddIsr IRQn_Type.DMA1_Channel4_IRQn,
      Action.AddIsr IRQn_Type.DMA1_Channel5_IRQn,
      Action.EnableInterrupt IRQn_Type.USART1_IRQn 10,
      Action.EnableInterrupt IRQn_Type.DMA1_Channel4_IRQn 10,
      Action.EnableInterrupt IRQn_Type.DMA1_Channel5_IRQn 10 ])

/-! ## Functions called back by the interrupt handlers (lines 110-119) -/

/-- `Serial::OnReceiveEventCallback(huart, pos)`, on the singleton
`Serial::Instance()`; `pos` is a `uint16_t`, so the assignment to the
`int32_t` member keeps its value. -/
def Serial.OnReceiveEventCallback (s : Serial) (pos : Nat) : Serial × List Action :=
  let s1 := { s with _current_receive_count := (pos : Int) }
  let s2 := { s1 with _receive_complete_signal := s1._receive_complete_signal.ReleaseFromISR }
  (s2, [Action.ReleaseFromISR Signal.receive_complete])

/-- `Serial::OnSendCompleteCallback(huart)`, on the singleton
`Serial::Instance()`. -/
def Serial.OnSendCompleteCallback (s : Serial) : Serial × List Action :=
  ({ s with _send_complete_signal := s._send_complete_signal.ReleaseFromISR },
    [Action.ReleaseFromISR Signal.send_complete])

/-! ## Open and Close -/

/-- `Serial::Open(options)` (lines 149-155). -/
def Serial.Open (s : Serial) (options : SerialOptions) : Serial × List Action :=
  let r1 := s.InitializeGpio
  let r2 := r1.1.InitializeDma
  let r3 := r2.1.InitializeUart options
  let r4 := r3.1.InitializeInterrupt
  (r4.1, r1.2 ++ r2.2 ++ r3.2 ++ r4.2)

/-- `Serial::Close()` (lines 196-204). -/
def Serial.Close (s : Serial) : Serial × List Action :=
  (s,
    [ Action.HAL_UART_DMAStop,
      Action.DisableInterrupt IRQn_Type.USART1_IRQn,
      Action.DisableInterrupt IRQn_Type.DMA1_Channel4_IRQn,
      Action.DisableInterrupt IRQn_Type.DMA1_Channel5_IRQn,
      Action.DmaClose DmaChannel.dma1_channel4,
      Action.DmaClose DmaChannel.dma1_channel5 ])

/-! ## Stream: Read and Write (lines 159-194) -/

/-- How a call to `Read` ends. -/
inductive ReadOutcome where
  /-- `throw std::invalid_argument` (line 163). -/
  | invalid_argument
  /-- `return _current_receive_count` (line 185). -/
  | returned (r : Int)
  /-- The caller sleeps in the `LockGuard` constructor (line 166). -/
  | blocked_on_lock
  /-- The caller sleeps in `_receive_complete_signal->Acquire()` (line 182)
  and no further receive event comes. -/
  | blocked_on_receive
  /-- Line 179 writes through `_uart_handle.hdmarx`, which is null: the
  behaviour is undefined and the run ends here. -/
  | null_dereference
  /-- The loop counter of the embedding ran out (never the case, see
  `Serial.Read_fuel_suffices`). -/
  | out_of_fuel
deriving DecidableEq, Repr

/-- Result of running `Read`: how it ended, the driver afterwards, the calls
made, and the receive events not yet delivered. A receive event is the number
of bytes that have arrived when it fires. -/
structure ReadResult where
  outcome : ReadOutcome
  state : Serial
  trace : List Action
  pending : List Nat
deriving DecidableEq, Repr

/-- Result of the critical section of `Read`: the driver afterwards, the calls
made, and whether line 179 dereferenced a null `hdmarx`. -/
structure ArmResult where
  state : Serial
  trace : List Action
  fault : Bool
deriving DecidableEq, Repr

/-- The block of lines 169-180: with interrupts globally disabled, arm the
idle-terminated DMA receive and null the half-transfer callback through
`_uart_handle.hdmarx`; with a null `hdmarx` the block ends at that write.
`bsp::GlobalInterruptGuard` is the pair of calls that disables the interrupts
on entry of the block and enables them on exit. -/
def Serial.ArmReceive (s : Serial) (buffer offset count : Int) : ArmResult :=
  let size := toUInt16 count
  let s1 := { s with _uart_handle := HAL_UARTEx_ReceiveToIdle_DMA s._uart_handle size }
  match s1._uart_handle.hdmarx with
  | none =>
    { state := s1
      trace :=
        [ Action.DisableGlobalInterrupt,
          Action.HAL_UARTEx_ReceiveToIdle_DMA (buffer + offset) size ]
      fault := true }
  | some d =>
    { state := { s1 with _uart_handle :=
        { s1._uart_handle with
          hdmarx := some { d with XferHalfCpltCallback := HalfCallback.null } } }
      trace :=
        [ Action.DisableGlobalInterrupt,
          Action.HAL_UARTEx_ReceiveToIdle_DMA (buffer + offset) size,
          Action.SetXferHalfCpltCallback HalfCallback.null,
          Action.EnableGlobalInterrupt ]
      fault := false }

/-- The wait of line 182. When the semaphore is signalled the caller takes it
at once. Otherwise the caller sleeps until the next receive event fires: the
interrupt handler runs `OnReceiveEventCallback` with the position the HAL
reports for it, and the caller takes the signal. `none`: there is no further
event and the caller sleeps forever. -/
def Serial.AcquireReceive (s : Serial) (events : List Nat) :
    Option (Serial × List Action × List Nat) :=
  match s._receive_complete_signal.Acquire with
  | some sem =>
    some ({ s with _receive_complete_signal := sem },
      [Action.Acquire Signal.receive_complete], events)
  | none =>
    match events with
    | [] => none
    | bytes :: rest =>
      let r := s.OnReceiveEventCallback (HAL_RxEventPosition s._uart_handle bytes)
      match r.1._receive_complete_signal.Acquire with
      | some sem =>
        some ({ r.1 with _receive_complete_signal := sem },
          r.2 ++ [Action.Acquire Signal.receive_complete], rest)
      | none => none

/-- The `while (true)` loop of lines 167-187, entered with the lock held.
`fuel` bounds the number of iterations of the embedding. -/
def Serial.ReadLoop (buffer offset count : Int) :
    Nat → Serial → List Nat → List Action → ReadResult
  | 0, s, events, tr => ⟨ReadOutcome.out_of_fuel, s, tr, events⟩
  | fuel + 1, s, events, tr =>
    let a := s.ArmReceive buffer offset count
    if a.fault then
      ⟨ReadOutcome.null_dereference, a.state, tr ++ a.trace, events⟩
    else
      match a.state.AcquireReceive events with
      | none => ⟨ReadOutcome.blocked_on_receive, a.state, tr ++ a.trace, []⟩
      | some (s1, acts, rest) =>
        if s1._current_receive_count > 0 then
          ⟨ReadOutcome.returned s1._current_receive_count,
            { s1 with _read_lock := s1._read_lock.Unlock },
            tr ++ a.trace ++ acts ++ [Action.Unlock], rest⟩
        else
          Serial.ReadLoop buffer offset count fuel s1 rest (tr ++ a.trace ++ acts)

/-- `Serial::Read(buffer, offset, count)` (lines 159-188), run against the
receive events `events` delivered while the caller sleeps. Every iteration of
the loop but the first consumes one event, so `events.length + 2` iterations
are enough. -/
def Serial.Read (s : Serial) (buffer offset count : Int) (events : List Nat) : ReadResult :=
  if count > UINT16_MAX then
    ⟨ReadOutcome.invalid_argument, s, [], events⟩
  else
    match s._read_lock.Lock with
    | none => ⟨ReadOutcome.blocked_on_lock, s, [], events⟩
    | some l =>
      Serial.ReadLoop buffer offset count (events.length + 2)
        { s with _read_lock := l } events [Action.Lock]

/-- How a call to `Write` ends. -/
inductive WriteOutcome where
  /-- The transmit was started and `Write` returned. -/
  | returned
  /-- The caller sleeps in `_send_complete_signal->Acquire()` (line 192). -/
  | blocked_on_send
deriving DecidableEq, Repr

/-- `Serial::Write(buffer, offset, count)` (lines 190-194), run with no
send-complete interrupt arriving during the call. -/
def Serial.Write (s : Serial) (buffer offset count : Int) :
    WriteOutcome × Serial × List Action :=
  match s._send_complete_signal.Acquire with
  | none => (WriteOutcome.blocked_on_send, s, [])
  | some sem =>
    (WriteOutcome.returned, { s with _send_complete_signal := sem },
      [ Action.Acquire Signal.send_complete,
        Action.HAL_UART_Transmit_DMA (buffer + offset) (toUInt16 count) ])


/-! ## Threads and interrupt handlers

The interleavings of application threads calling `Read` and `Write` with the
two interrupt callbacks. A thread executes one statement per step; a thread
that would sleep (lock held, semaphore not signalled) has no step. -/

namespace Sched

/-- The arguments of a `Read` or `Write` call. -/
structure Args where
  buffer : Int
  offset : Int
  count : Int
deriving DecidableEq, Repr

/-- The statement a thread executes next. -/
inductive Pc where
  /-- Outside `Read` and `Write`. -/
  | idle
  /-- In `Read`, at the argument check (line 161). -/
  | read_check (a : Args)
  /-- In `Read`, at the `LockGuard` constructor (line 166). -/
  | read_lock (a : Args)
  /-- In `Read`, holding the lock, at the critical section (lines 169-180). -/
  | read_arm (a : Args)
  /-- In `Read`, holding the lock, at `Acquire` (line 182). -/
  | read_acquire (a : Args)
  /-- In `Read`, holding the lock, at the test of the count (lines 183-186). -/
  | read_test (a : Args)
  /-- In `Write`, at `Acquire` (line 192). -/
  | write_acquire (a : Args)
  /-- In `Write`, past `Acquire`, at `HAL_UART_Transmit_DMA` (line 193). -/
  | write_transmit (a : Args)
deriving DecidableEq, Repr

/-- The thread is between the `LockGuard` constructor and the return of its
`Read` call. -/
def Pc.holds_read_lock : Pc → Bool
  | Pc.read_arm _ => true
  | Pc.read_acquire _ => true
  | Pc.read_test _ => true
  | _ => false

/-- The thread has passed the `Acquire` of `Write` and not yet started its
transmit. -/
def Pc.passed_send_acquire : Pc → Bool
  | Pc.write_transmit _ => true
  | _ => false

/-- One line of the event log. -/
inductive Entry where
  /-- A call made by thread `t`. -/
  | thread (t : Nat) (a : Action)
  /-- A call made by an interrupt callback. -/
  | isr (a : Action)
  /-- `Read` returned `r` to thread `t`. -/
  | read_returned (t : Nat) (r : Int)
  /-- `Read` threw `std::invalid_argument` in thread `t`. -/
  | read_threw (t : Nat)
  /-- `Write` returned to thread `t`. -/
  | write_returned (t : Nat)
deriving DecidableEq, Repr

/-- What happens next. -/
inductive Event where
  /-- Thread `t`, outside any call, calls `Read`. -/
  | call_read (t : Nat) (a : Args)
  /-- Thread `t`, outside any call, calls `Write`. -/
  | call_write (t : Nat) (a : Args)
  /-- Thread `t` executes its next statement. -/
  | run (t : Nat)
  /-- The interrupt handler calls `OnReceiveEventCallback` with `pos`. -/
  | receive_event (pos : Nat)
  /-- The interrupt handler calls `OnSendCompleteCallback` for the transmit
  in flight. -/
  | send_complete
deriving DecidableEq, Repr

/-- The driver, the threads, the transmits started and not yet reported
complete, the log, and whether a thread has written through a null pointer
(after which nothing runs). -/
structure State where
  serial : Serial
  pc : Nat → Pc
  tx_in_flight : Nat
  log : List Entry
  faulted : Bool

/-- All threads outside any call, nothing in flight. -/
def init (serial : Serial) : State :=
  { serial := serial, pc := fun _ => Pc.idle, tx_in_flight := 0, log := [],
    faulted := false }

/-- Thread `t` moves to `pc`. -/
def State.goto (s : State) (t : Nat) (pc : Pc) : State :=
  { s with pc := fun u => if u = t then pc else s.pc u }

/-- Thread `t` executes the statement at its program counter; `none` when it
has none or sleeps. -/
def runThread (s : State) (t : Nat) : Option State :=
  match s.pc t with
  | Pc.idle => none
  | Pc.read_check a =>
    if a.count > UINT16_MAX then
      some { s.goto t Pc.idle with log := s.log ++ [Entry.read_threw t] }
    else
      some (s.goto t (Pc.read_lock a))
  | Pc.read_lock a =>
    match s.serial._read_lock.Lock with
    | none => none
    | some l =>
      some { s.goto t (Pc.read_arm a) with
        serial := { s.serial with _read_lock := l }
        log := s.log ++ [Entry.thread t Action.Lock] }
  | Pc.read_arm a =>
    let r := s.serial.ArmReceive a.buffer a.offset a.count
    if r.fault then
      some { s with
        serial := r.state
        log := s.log ++ r.trace.map (Entry.thread t)
        faulted := true }
    else
      some { s.goto t (Pc.read_acquire a) with
        serial := r.state
        log := s.log ++ r.trace.map (Entry.thread t) }
  | Pc.read_acquire a =>
    match s.serial._receive_complete_signal.Acquire with
    | none => none
    | some sem =>
      some { s.goto t (Pc.read_test a) with
        serial := { s.serial with _receive_complete_signal := sem }
        log := s.log ++ [Entry.thread t (Action.Acquire Signal.receive_complete)] }
  | Pc.read_test a =>
    if s.serial._current_receive_count > 0 then
      some { s.goto t Pc.idle with
        serial := { s.serial with _read_lock := s.serial._read_lock.Unlock }
        log := s.log ++ [Entry.thread t Action.Unlock,
          Entry.read_returned t s.serial._current_receive_count] }
    else
      some (s.goto t (Pc.read_arm a))
  | Pc.write_acquire a =>
    match s.serial._send_complete_signal.Acquire with
    | none => none
    | some sem =>
      some { s.goto t (Pc.write_transmit a) with
        serial := { s.serial with _send_complete_signal := sem }
        log := s.log ++ [Entry.thread t (Action.Acquire Signal.send_complete)] }
  | Pc.write_transmit a =>
    some { s.goto t Pc.idle with
      tx_in_flight := s.tx_in_flight + 1
      log := s.log ++ [Entry.thread t
          (Action.HAL_UART_Transmit_DMA (a.buffer + a.offset) (toUInt16 a.count)),
        Entry.write_returned t] }

/-- What an event does to a system that runs. -/
def stepRunning (s : State) : Event → Option State
  | Event.call_read t a =>
    if s.pc t = Pc.idle then some (s.goto t (Pc.read_check a)) else none
  | Event.call_write t a =>
    if s.pc t = Pc.idle then some (s.goto t (Pc.write_acquire a)) else none
  | Event.run t => runThread s t
  | Event.receive_event pos =>
    let r := s.serial.OnReceiveEventCallback pos
    some { s with serial := r.1, log := s.log ++ r.2.map Entry.isr }
  | Event.send_complete =>
    if s.tx_in_flight = 0 then none
    else
      let r := s.serial.OnSendCompleteCallback
      some { s with
        serial := r.1
        tx_in_flight := s.tx_in_flight - 1
        log := s.log ++ r.2.map Entry.isr }

/-- One step of the system; `none` when the event cannot happen, which is
the case for every event once a thread has written through a null pointer. -/
def step (s : State) (e : Event) : Option State :=
  if s.faulted then none else stepRunning s e

/-- The state after the events `evs`, `none` when one of them cannot
happen. -/
def run (s : State) : List Event → Option State
  | [] => some s
  | e :: es => (step s e).bind (fun s1 => run s1 es)

/-- The thread of a log line that records a `Write` passing `Acquire`. -/
def Entry.passedThread : Entry → Option Nat
  | Entry.thread t (Action.Acquire Signal.send_complete) => some t
  | _ => none

/-- The thread of a log line that records a `Write` starting its transmit. -/
def Entry.armedThread : Entry → Option Nat
  | Entry.thread t (Action.HAL_UART_Transmit_DMA _ _) => some t
  | _ => none

/-- The threads whose `Write` passed `Acquire`, in log order. -/
def passedOrder (log : List Entry) : List Nat := log.filterMap Entry.passedThread

/-- The threads whose `Write` started a transmit, in log order. -/
def armedOrder (log : List Entry) : List Nat := log.filterMap Entry.armedThread

/-- The read lock is held exactly while one thread is between the `LockGuard`
constructor and its return, and no two threads are. -/
def ReadInv (s : State) : Prop :=
  (s.serial._read_lock.locked = false → ∀ t, (s.pc t).holds_read_lock = false) ∧
  (∀ t u, (s.pc t).holds_read_lock = true → (s.pc u).holds_read_lock = true → t = u)

/-- The send side is in one of three phases: the semaphore is signalled and
nothing is pending; or one thread has taken the signal and not yet started its
transmit; or one transmit is in flight. -/
def WriteInv (s : State) : Prop :=
  (s.serial._send_complete_signal.signalled = true ∧ s.tx_in_flight = 0 ∧
      (∀ t, (s.pc t).passed_send_acquire = false) ∧
      passedOrder s.log = armedOrder s.log) ∨
  (s.serial._send_complete_signal.signalled = false ∧ s.tx_in_flight = 0 ∧
      ∃ t, (s.pc t).passed_send_acquire = true ∧
        (∀ u, (s.pc u).passed_send_acquire = true → u = t) ∧
        passedOrder s.log = armedOrder s.log ++ [t]) ∨
  (s.serial._send_complete_signal.signalled = false ∧ s.tx_in_flight = 1 ∧
      (∀ t, (s.pc t).passed_send_acquire = false) ∧
      passedOrder s.log = armedOrder s.log)

/-- Two threads call `Read`; the second takes the lock after the first has
returned. -/
def twoReaders : List Event :=
  [ Event.call_read 0 ⟨4096, 0, 10⟩, Event.call_read 1 ⟨8192, 0, 10⟩,
    Event.run 0, Event.run 1, Event.run 0, Event.run 0, Event.receive_event 5,
    Event.run 0, Event.run 0, Event.run 1 ]

/-- Two threads call `Write`; the second passes `Acquire` after the
send-complete callback for the first transmit. -/
def twoWriters : List Event :=
  [ Event.call_write 0 ⟨4096, 0, 2⟩, Event.run 0, Event.call_write 1 ⟨8192, 0, 3⟩,
    Event.run 0, Event.send_complete, Event.run 1, Event.run 1 ]

end Sched


/-! ## Vocabulary of the statements -/

/-- Reading `tr` from its start, an `a` is met before any `b`, and a `b`
follows it: the first `a` comes before every `b`, and both occur. -/
def precedes (a b : Action) : List Action → Bool
  | [] => false
  | x :: tr =>
    if x = b then false
    else if x = a then decide (b ∈ tr)
    else precedes a b tr

/-- What the critical section of `Read` adds to the trace. -/
def armSequence (buffer offset count : Int) : List Action :=
  [ Action.DisableGlobalInterrupt,
    Action.HAL_UARTEx_ReceiveToIdle_DMA (buffer + offset) (toUInt16 count),
    Action.SetXferHalfCpltCallback HalfCallback.null,
    Action.EnableGlobalInterrupt ]

/-- The driver after the critical section of a `Read` with `count`, entered
with a receive DMA handle linked. -/
def Serial.armed (s : Serial) (count : Int) : Serial :=
  { s with _uart_handle :=
    { s._uart_handle with
      RxXferSize := toUInt16 count
      hdmarx := some ⟨HalfCallback.null⟩ } }

/-- The position the HAL reports for a receive event with `bytes` bytes
arrived, during a receive that `Read` armed with `count`. -/
def rxPosition (count : Int) (bytes : Nat) : Nat :=
  min bytes (toUInt16 count).toNat

/-- The driver after `Open` on the freshly constructed object. -/
def Serial.opened (options : SerialOptions) : Serial :=
  (Serial.Open Serial.fresh options).1

/-- C1: a `Read` with `count > 65535` ends with the invalid-argument error
and has done nothing else: the trace of calls is empty (no lock taken, no
receive armed, half-transfer callback not written, no semaphore acquired),
the driver is unchanged and no receive event was consumed. -/
theorem Read_count_too_large (s : Serial) (buffer offset count : Int) (events : List Nat)
    (h : count > 65535) :
    (s.Read buffer offset count events).outcome = ReadOutcome.invalid_argument ∧
    (s.Read buffer offset count events).trace = [] ∧
    (s.Read buffer offset count events).state = s ∧
    (s.Read buffer offset count events).pending = events := by
  have hc : count > UINT16_MAX := h
  simp [Serial.Read, hc]

theorem Read_count_too_large_witness :
    (Serial.fresh.Read 0 0 65536 [7]).outcome = ReadOutcome.invalid_argument ∧
    (Serial.fresh.Read 0 0 65536 [7]).trace = [] ∧
    (Serial.fresh.Read 0 0 65536 [7]).state = Serial.fresh ∧
    (Serial.fresh.Read 0 0 65536 [7]).pending = [7] :=
  Read_count_too_large Serial.fresh 0 0 65536 [7] (by decide)

/-- C7: `Close` leaves the driver object as it was (both semaphores, the read
lock and the last receive count included); all it does is stop DMA, disable
the three interrupt lines and close the two DMA channels, in this order. -/
theorem Close_keeps_synchronisation_state (s : Serial) :
    (s.Close).1._send_complete_signal = s._send_complete_signal ∧
    (s.Close).1._receive_complete_signal = s._receive_complete_signal ∧
    (s.Close).1._read_lock = s._read_lock ∧
    (s.Close).1._current_receive_count = s._current_receive_count ∧
    (s.Close).1 = s ∧
    (s.Close).2 =
      [ Action.HAL_UART_DMAStop,
        Action.DisableInterrupt IRQn_Type.USART1_IRQn,
        Action.DisableInterrupt IRQn_Type.DMA1_Channel4_IRQn,
        Action.DisableInterrupt IRQn_Type.DMA1_Channel5_IRQn,
        Action.DmaClose DmaChannel.dma1_channel4,
        Action.DmaClose DmaChannel.dma1_channel5 ] := by
  simp [Serial.Close]

/-- C8: the receive-event callback stores `pos` as the last receive count,
signals the receive-complete semaphore and leaves the send-complete semaphore
(and the lock and the handle) alone; the send-complete callback signals the
send-complete semaphore and leaves the last receive count and the
receive-complete semaphore (and the lock and the handle) alone. -/
theorem callbacks_touch_own_direction (s : Serial) (pos : Nat) :
    (s.OnReceiveEventCallback pos).1 =
      { s with _current_receive_count := (pos : Int), _receive_complete_signal := ⟨true⟩ } ∧
    (s.OnReceiveEventCallback pos).1._current_receive_count = (pos : Int) ∧
    (s.OnReceiveEventCallback pos).1._receive_complete_signal.signalled = true ∧
    (s.OnReceiveEventCallback pos).1._send_complete_signal = s._send_complete_signal ∧
    (s.OnReceiveEventCallback pos).2 = [Action.ReleaseFromISR Signal.receive_complete] ∧
    (s.OnSendCompleteCallback).1 = { s with _send_complete_signal := ⟨true⟩ } ∧
    (s.OnSendCompleteCallback).1._send_complete_signal.signalled = true ∧
    (s.OnSendCompleteCallback).1._current_receive_count = s._current_receive_count ∧
    (s.OnSendCompleteCallback).1._receive_complete_signal = s._receive_complete_signal ∧
    (s.OnSendCompleteCallback).2 = [Action.ReleaseFromISR Signal.send_complete] := by
  simp [Serial.OnReceiveEventCallback, Serial.OnSendCompleteCallback,
    IBinarySemaphore.ReleaseFromISR]


/-- C9: for every driver state and options value, `Open` makes exactly these
calls in this order: the two GPIO lines, the two DMA channels, the UART clock,
the pre-signal, `HAL_UART_Init`, the two callback assignments, the three
handler registrations, the three interrupt enables. `HAL_UART_Init` resets the
callbacks to the defaults, and afterwards they are the driver's own; both are
assigned after `HAL_UART_Init` and before any interrupt line is enabled. -/
theorem Open_order (s : Serial) (options : SerialOptions) :
    (s.Open options).2 =
      [ Action.OpenAsAlternateFunctionMode GpioPin.PA9 GpioAlternateFunction.af_push_pull
          IGpioPinPullMode.PullUp IGpioPinDriver.PushPull,
        Action.OpenAsAlternateFunctionMode GpioPin.PA10 GpioAlternateFunction.af_input
          IGpioPinPullMode.PullUp IGpioPinDriver.PushPull,
        Action.DmaOpen DmaChannel.dma1_channel4
          ⟨IDmaOptions_Direction.MemoryToPeripheral, 1, true, 1, false,
            IDmaOptions_Priority.Medium⟩,
        Action.DmaOpen DmaChannel.dma1_channel5
          ⟨IDmaOptions_Direction.PeripheralToMemory, 1, true, 1, false,
            IDmaOptions_Priority.Medium⟩,
        Action.RCC_USART1_CLK_ENABLE,
        Action.Release Signal.send_complete,
        Action.HAL_UART_Init options,
        Action.SetRxEventCallback Callback.OnReceiveEventCallback,
        Action.SetTxCpltCallback Callback.OnSendCompleteCallback,
        Action.AddIsr IRQn_Type.USART1_IRQn,
        Action.AddIsr IRQn_Type.DMA1_Channel4_IRQn,
        Action.AddIsr IRQn_Type.DMA1_Channel5_IRQn,
        Action.EnableInterrupt IRQn_Type.USART1_IRQn 10,
        Action.EnableInterrupt IRQn_Type.DMA1_Channel4_IRQn 10,
        Action.EnableInterrupt IRQn_Type.DMA1_Channel5_IRQn 10 ] ∧
    (HAL_UART_Init s._uart_handle).RxEventCallback = Callback.hal_default ∧
    (HAL_UART_Init s._uart_handle).TxCpltCallback = Callback.hal_default ∧
    (s.Open options).1._uart_handle.RxEventCallback = Callback.OnReceiveEventCallback ∧
    (s.Open options).1._uart_handle.TxCpltCallback = Callback.OnSendCompleteCallback ∧
    (s.Open options).1._uart_handle.Init = options ∧
    precedes (Action.HAL_UART_Init options)
      (Action.SetRxEventCallback Callback.OnReceiveEventCallback) (s.Open options).2 = true ∧
    precedes (Action.HAL_UART_Init options)
      (Action.SetTxCpltCallback Callback.OnSendCompleteCallback) (s.Open options).2 = true ∧
    (∀ irq : IRQn_Type,
      precedes (Action.SetRxEventCallback Callback.OnReceiveEventCallback)
        (Action.EnableInterrupt irq 10) (s.Open options).2 = true ∧
      precedes (Action.SetTxCpltCallback Callback.OnSendCompleteCallback)
        (Action.EnableInterrupt irq 10) (s.Open options).2 = true) := by
  refine ⟨rfl, rfl, rfl, rfl, rfl, rfl, ?_, ?_, ?_⟩
  · simp [Serial.Open, Serial.InitializeGpio, Serial.InitializeDma, Serial.InitializeUart,
      Serial.InitializeInterrupt, precedes]
  · simp [Serial.Open, Serial.InitializeGpio, Serial.InitializeDma, Serial.InitializeUart,
      Serial.InitializeInterrupt, precedes]
  · intro irq
    cases irq <;>
      simp [Serial.Open, Serial.InitializeGpio, Serial.InitializeDma, Serial.InitializeUart,
        Serial.InitializeInterrupt, precedes]

/-! ### The critical section and the wait -/

/-- With a receive DMA handle linked the critical section runs to its end. -/
theorem Serial.ArmReceive_linked (s : Serial) (buffer offset count : Int)
    (h : s._uart_handle.hdmarx ≠ none) :
    s.ArmReceive buffer offset count =
      ⟨s.armed count, armSequence buffer offset count, false⟩ := by
  cases hd : s._uart_handle.hdmarx with
  | none => exact absurd hd h
  | some d => simp [Serial.ArmReceive, HAL_UARTEx_ReceiveToIdle_DMA, hd, Serial.armed,
      armSequence]

/-- The critical section leaves the semaphores alone and records the length
`Read` passes to the HAL. -/
theorem Serial.ArmReceive_state (s : Serial) (buffer offset count : Int) :
    (s.ArmReceive buffer offset count).state._receive_complete_signal =
      s._receive_complete_signal ∧
    (s.ArmReceive buffer offset count).state._uart_handle.RxXferSize = toUInt16 count := by
  cases hd : s._uart_handle.hdmarx <;>
    simp [Serial.ArmReceive, HAL_UARTEx_ReceiveToIdle_DMA, hd]

/-- A caller that finds the semaphore unsignalled is woken by the next
receive event and finds the position the HAL reports for it. -/
theorem Serial.AcquireReceive_wake (s : Serial) (bytes : Nat) (rest : List Nat)
    (hs : s._receive_complete_signal.signalled = false) :
    s.AcquireReceive (bytes :: rest) =
      some ({ s with
          _current_receive_count := (HAL_RxEventPosition s._uart_handle bytes : Int)
          _receive_complete_signal := ⟨false⟩ },
        [Action.ReleaseFromISR Signal.receive_complete,
          Action.Acquire Signal.receive_complete], rest) := by
  simp [Serial.AcquireReceive, IBinarySemaphore.Acquire, hs, Serial.OnReceiveEventCallback,
    IBinarySemaphore.ReleaseFromISR]

/-- What `Acquire` of line 182 yields: the semaphore is unsignalled
afterwards, and the wait consumed the signal that was there or else exactly
one receive event, whose reported position is then the last receive count. -/
theorem Serial.AcquireReceive_some (s s1 : Serial) (events rest : List Nat)
    (acts : List Action) (h : s.AcquireReceive events = some (s1, acts, rest)) :
    s1._receive_complete_signal.signalled = false ∧
    (s._receive_complete_signal.signalled = true → rest = events) ∧
    (s._receive_complete_signal.signalled = false →
      ∃ bytes, events = bytes :: rest ∧
        s1._current_receive_count = (HAL_RxEventPosition s._uart_handle bytes : Int)) := by
  cases hs : s._receive_complete_signal.signalled with
  | true =>
    simp only [Serial.AcquireReceive, IBinarySemaphore.Acquire, hs, if_true, Option.some.injEq,
      Prod.mk.injEq] at h
    obtain ⟨h1, _, h3⟩ := h
    subst h1
    exact ⟨rfl, fun _ => h3.symm, fun h => by simp at h⟩
  | false =>
    cases events with
    | nil => simp [Serial.AcquireReceive, IBinarySemaphore.Acquire, hs] at h
    | cons bytes tl =>
      rw [Serial.AcquireReceive_wake s bytes tl hs] at h
      simp only [Option.some.injEq, Prod.mk.injEq] at h
      obtain ⟨h1, _, h3⟩ := h
      subst h1
      subst h3
      exact ⟨rfl, fun h => by simp at h, fun _ => ⟨bytes, rfl, rfl⟩⟩

/-! ### The retry loop of `Read` -/

/-- The loop never ends with the invalid-argument error. -/
theorem Serial.ReadLoop_outcome_ne_invalid (buffer offset count : Int) (fuel : Nat) :
    ∀ (s : Serial) (events : List Nat) (tr : List Action),
      (Serial.ReadLoop buffer offset count fuel s events tr).outcome ≠
        ReadOutcome.invalid_argument := by
  induction fuel with
  | zero => intro s events tr; simp [Serial.ReadLoop]
  | succ fuel ih =>
    intro s events tr
    simp only [Serial.ReadLoop]
    split
    · simp
    · split
      · simp
      · split
        · simp
        · exact ih _ _ _

/-- The loop only appends to the trace it is given. -/
theorem Serial.ReadLoop_trace_extends (buffer offset count : Int) (fuel : Nat) :
    ∀ (s : Serial) (events : List Nat) (tr : List Action),
      ∃ tail, (Serial.ReadLoop buffer offset count fuel s events tr).trace = tr ++ tail := by
  induction fuel with
  | zero => intro s events tr; exact ⟨[], by simp [Serial.ReadLoop]⟩
  | succ fuel ih =>
    intro s events tr
    simp only [Serial.ReadLoop]
    split
    · exact ⟨_, rfl⟩
    · split
      · exact ⟨_, rfl⟩
      · split
        · exact ⟨_, by simp only [List.append_assoc]; rfl⟩
        · obtain ⟨tail, h⟩ := ih _ _ (tr ++ (s.ArmReceive buffer offset count).trace ++ _)
          exact ⟨_, by rw [h]; simp only [List.append_assoc]; rfl⟩

/-- On a driver with a receive DMA handle linked, a loop that runs at least
once begins with the whole critical section. -/
theorem Serial.ReadLoop_trace_begins (buffer offset count : Int) (fuel : Nat) (s : Serial)
    (events : List Nat) (tr : List Action) (hdma : s._uart_handle.hdmarx ≠ none) :
    ∃ tail, (Serial.ReadLoop buffer offset count (fuel + 1) s events tr).trace =
      tr ++ armSequence buffer offset count ++ tail := by
  simp only [Serial.ReadLoop, Serial.ArmReceive_linked s buffer offset count hdma]
  simp only [Bool.false_eq_true, if_false]
  split
  · exact ⟨[], by simp⟩
  · split
    · exact ⟨_, by simp only [List.append_assoc]; rfl⟩
    · obtain ⟨tail, h⟩ := Serial.ReadLoop_trace_extends buffer offset count fuel _ _
        (tr ++ armSequence buffer offset count ++ _)
      exact ⟨_, by rw [h]; simp only [List.append_assoc]; rfl⟩

/-- `Open` links the receive DMA handle. -/
theorem Serial.Open_links_hdmarx (s : Serial) (options : SerialOptions) :
    (s.Open options).1._uart_handle.hdmarx ≠ none := by
  simp [Serial.Open, Serial.InitializeGpio, Serial.InitializeDma, Serial.InitializeUart,
    Serial.InitializeInterrupt, DmaChannel_Open, HAL_UART_Init]

/-- C10: on an opened driver (receive DMA handle linked) whose read lock is
free, for every `count <= 65535`, zero and the negative values included,
`Read` does not end with the invalid-argument error: it takes the lock and
arms a receive at `buffer + offset` whose 16-bit length is `count mod 65536`,
a value between 0 and 65535; for a negative `count` this is not the `count`
passed. -/
theorem Read_check_is_one_sided (s : Serial) (buffer offset count : Int) (events : List Nat)
    (hdma : s._uart_handle.hdmarx ≠ none)
    (hlock : s._read_lock.locked = false) (hcount : count ≤ 65535) :
    (s.Read buffer offset count events).outcome ≠ ReadOutcome.invalid_argument ∧
    (∃ tail, (s.Read buffer offset count events).trace =
      [ Action.Lock,
        Action.DisableGlobalInterrupt,
        Action.HAL_UARTEx_ReceiveToIdle_DMA (buffer + offset) (count % 65536),
        Action.SetXferHalfCpltCallback HalfCallback.null,
        Action.EnableGlobalInterrupt ] ++ tail) ∧
    0 ≤ count % 65536 ∧ count % 65536 ≤ 65535 ∧
    (count < 0 → count % 65536 ≠ count) := by
  have hc : ¬ count > UINT16_MAX := by
    show ¬ count > 65535
    omega
  refine ⟨?_, ?_, by omega, by omega, by omega⟩
  · simp only [Serial.Read, hc, if_false, IMutex.Lock, hlock]
    exact Serial.ReadLoop_outcome_ne_invalid _ _ _ _ _ _ _
  · simp only [Serial.Read, hc, if_false, IMutex.Lock, hlock]
    obtain ⟨tail, h⟩ := Serial.ReadLoop_trace_begins buffer offset count (events.length + 1)
      { s with _read_lock := ⟨true⟩ } events [Action.Lock] hdma
    exact ⟨tail, by simpa [armSequence, toUInt16] using h⟩

theorem Read_check_is_one_sided_witness :
    ((Serial.opened ⟨115200, 8, 0, 1⟩).Read 4096 0 (-1) [3]).outcome ≠
      ReadOutcome.invalid_argument ∧
    (∃ tail, ((Serial.opened ⟨115200, 8, 0, 1⟩).Read 4096 0 (-1) [3]).trace =
      [ Action.Lock,
        Action.DisableGlobalInterrupt,
        Action.HAL_UARTEx_ReceiveToIdle_DMA (4096 + 0) ((-1) % 65536),
        Action.SetXferHalfCpltCallback HalfCallback.null,
        Action.EnableGlobalInterrupt ] ++ tail) ∧
    (0 : Int) ≤ (-1) % 65536 ∧ ((-1) % 65536 : Int) ≤ 65535 ∧
    ((-1 : Int) < 0 → ((-1) % 65536 : Int) ≠ -1) :=
  Read_check_is_one_sided (Serial.opened ⟨115200, 8, 0, 1⟩) 4096 0 (-1) [3] (by decide)
    (by decide) (by decide)

/-- Every sequence of receive events is a run of events with reported
position zero, followed or not by a first event with a nonzero position and
the rest. -/
theorem zero_prefix_cases (count : Int) (events : List Nat) :
    (∀ z ∈ events, rxPosition count z = 0) ∨
    (∃ zeros b rest, (∀ z ∈ zeros, rxPosition count z = 0) ∧ rxPosition count b ≠ 0 ∧
      events = zeros ++ b :: rest) := by
  induction events with
  | nil => exact Or.inl (by simp)
  | cons x xs ih =>
    by_cases hx : rxPosition count x = 0
    · rcases ih with hall | ⟨zeros, b, rest, hz, hb, hev⟩
      · exact Or.inl (by
          intro z hzm
          rcases List.mem_cons.mp hzm with h | h
          · rw [h]; exact hx
          · exact hall z h)
      · refine Or.inr ⟨x :: zeros, b, rest, ?_, hb, by rw [hev]; rfl⟩
        intro z hzm
        rcases List.mem_cons.mp hzm with h | h
        · rw [h]; exact hx
        · exact hz z h
    · exact Or.inr ⟨[], x, xs, by simp, hx, rfl⟩

/-- The loop counter of the embedding suffices: with more iterations than
events (one more when the semaphore is signalled on entry) the loop ends by
returning, by sleeping or at the null pointer. -/
theorem Serial.ReadLoop_fuel_suffices (buffer offset count : Int) (fuel : Nat) :
    ∀ (s : Serial) (events : List Nat) (tr : List Action),
      events.length + (if s._receive_complete_signal.signalled then 1 else 0) < fuel →
      (Serial.ReadLoop buffer offset count fuel s events tr).outcome ≠
        ReadOutcome.out_of_fuel := by
  induction fuel with
  | zero => intro s events tr h; omega
  | succ fuel ih =>
    intro s events tr hf
    simp only [Serial.ReadLoop]
    split
    · simp
    · split
      · simp
      · rename_i s1 acts rest hacq
        obtain ⟨h1, h2, h3⟩ := Serial.AcquireReceive_some _ _ _ _ _ hacq
        split
        · simp
        · apply ih
          simp only [h1, Bool.false_eq_true, if_false, Nat.add_zero]
          rw [(Serial.ArmReceive_state s buffer offset count).1] at h2 h3
          cases hs : s._receive_complete_signal.signalled with
          | true =>
            rw [h2 hs]
            simp only [hs, if_true] at hf
            omega
          | false =>
            obtain ⟨bytes, hbytes, _⟩ := h3 hs
            simp only [hs, Bool.false_eq_true, if_false, hbytes, List.length_cons] at hf
            omega

/-- `Read` never ends by running out of loop counter: it throws, sleeps,
returns or ends at the null pointer. -/
theorem Serial.Read_fuel_suffices (s : Serial) (buffer offset count : Int)
    (events : List Nat) :
    (s.Read buffer offset count events).outcome ≠ ReadOutcome.out_of_fuel := by
  simp only [Serial.Read]
  split
  · simp
  · split
    · simp
    · apply Serial.ReadLoop_fuel_suffices
      split <;> omega

/-! ### Read: results -/

/-- C4, as stated, fails for a count outside 0..65535: after `Open`, the
first `Write(buffer, 0, 65536)` hands the length 0 to the transmit, not
65536. -/
theorem first_Write_length_counterexample :
    ((Serial.opened ⟨115200, 8, 0, 1⟩).Write 4096 0 65536).2.2 =
      [ Action.Acquire Signal.send_complete, Action.HAL_UART_Transmit_DMA 4096 0 ] ∧
    ¬ (∀ (options : SerialOptions) (buffer offset count : Int),
        ((Serial.opened options).Write buffer offset count).2.2 =
          [ Action.Acquire Signal.send_complete,
            Action.HAL_UART_Transmit_DMA (buffer + offset) count ]) := by
  refine ⟨by decide, ?_⟩
  intro h
  exact absurd (h ⟨115200, 8, 0, 1⟩ 4096 0 65536) (by decide)

/-- C4, amended: `Open` on the freshly constructed driver (both semaphores
unsignalled) releases the send-complete semaphore exactly once and leaves it
signalled; for every buffer and offset and every count with
`0 <= count <= 65535` the first `Write` then acquires it without sleeping and
starts a transmit of `count` bytes at `buffer + offset`; after that `Write`
the semaphore is unsignalled, so a second `Write` sleeps, and it proceeds once
the send-complete callback has run. -/
theorem Open_presignals_send_complete (options : SerialOptions)
    (buffer offset count buffer2 offset2 count2 : Int)
    (h0 : 0 ≤ count) (h1 : count ≤ 65535) :
    Serial.fresh._send_complete_signal.signalled = false ∧
    Serial.fresh._receive_complete_signal.signalled = false ∧
    (Serial.Open Serial.fresh options).2.count (Action.Release Signal.send_complete) = 1 ∧
    (Serial.opened options)._send_complete_signal.signalled = true ∧
    ((Serial.opened options).Write buffer offset count).1 = WriteOutcome.returned ∧
    ((Serial.opened options).Write buffer offset count).2.2 =
      [ Action.Acquire Signal.send_complete,
        Action.HAL_UART_Transmit_DMA (buffer + offset) count ] ∧
    ((Serial.opened options).Write buffer offset count).2.1._send_complete_signal.signalled
      = false ∧
    ((Serial.opened options).Write buffer offset count).2.1.Write buffer2 offset2 count2 =
      (WriteOutcome.blocked_on_send,
        ((Serial.opened options).Write buffer offset count).2.1, []) ∧
    ((((Serial.opened options).Write buffer offset count).2.1.OnSendCompleteCallback).1.Write
      buffer2 offset2 count2).1 = WriteOutcome.returned := by
  have hlen : toUInt16 count = count := by
    show count % 65536 = count
    omega
  refine ⟨rfl, rfl, ?_, rfl, rfl, ?_, rfl, rfl, rfl⟩
  · simp [Serial.Open, Serial.InitializeGpio, Serial.InitializeDma, Serial.InitializeUart,
      Serial.InitializeInterrupt, List.count_cons]
  · show [ Action.Acquire Signal.send_complete,
        Action.HAL_UART_Transmit_DMA (buffer + offset) (toUInt16 count) ] = _
    rw [hlen]

theorem Open_presignals_send_complete_witness :
    ((Serial.opened ⟨115200, 8, 0, 1⟩).Write 4096 0 2).1 = WriteOutcome.returned ∧
    ((Serial.opened ⟨115200, 8, 0, 1⟩).Write 4096 0 2).2.2 =
      [ Action.Acquire Signal.send_complete, Action.HAL_UART_Transmit_DMA (4096 + 0) 2 ] ∧
    (((Serial.opened ⟨115200, 8, 0, 1⟩).Write 4096 0 2).2.1.Write 4098 0 1).1 =
      WriteOutcome.blocked_on_send :=
  have h := Open_presignals_send_complete ⟨115200, 8, 0, 1⟩ 4096 0 2 4098 0 1 (by decide)
    (by decide)
  ⟨h.2.2.2.2.1, h.2.2.2.2.2.1, congrArg Prod.fst h.2.2.2.2.2.2.2.1⟩


/-! ### Interleavings -/

namespace Sched

/-- A step that happens is a step of a system that runs. -/
theorem step_running (s s1 : State) (e : Event) (h : step s e = some s1) :
    stepRunning s e = some s1 := by
  unfold step at h
  split at h
  · simp at h
  · exact h

/-- The calls of the critical section are neither the `Acquire` nor the
transmit of a `Write`. -/
theorem ArmReceive_trace_orders (serial : Serial) (buffer offset count : Int) (t : Nat) :
    passedOrder ((serial.ArmReceive buffer offset count).trace.map (Entry.thread t)) = [] ∧
    armedOrder ((serial.ArmReceive buffer offset count).trace.map (Entry.thread t)) = [] := by
  cases hd : serial._uart_handle.hdmarx <;>
    simp [Serial.ArmReceive, HAL_UARTEx_ReceiveToIdle_DMA, hd, passedOrder, armedOrder,
      Entry.passedThread, Entry.armedThread]

/-- How a step acts on the read lock and on who is inside the locked part of
`Read`: not at all, or thread `t` takes the free lock, or thread `t` returns
and gives it back. -/
theorem step_read_effect (s s1 : State) (e : Event) (h : step s e = some s1) :
    (s1.serial._read_lock = s.serial._read_lock ∧
      ∀ u, (s1.pc u).holds_read_lock = (s.pc u).holds_read_lock) ∨
    (∃ t, s.serial._read_lock.locked = false ∧ s1.serial._read_lock.locked = true ∧
      ∀ u, (s1.pc u).holds_read_lock = (if u = t then true else (s.pc u).holds_read_lock)) ∨
    (∃ t, (s.pc t).holds_read_lock = true ∧ s1.serial._read_lock.locked = false ∧
      ∀ u, (s1.pc u).holds_read_lock = (if u = t then false else (s.pc u).holds_read_lock)) := by
  replace h := step_running s s1 e h
  cases e with
  | call_read t a =>
    simp only [stepRunning] at h
    split at h
    · rename_i hpc
      simp only [Option.some.injEq] at h
      subst h
      refine Or.inl ⟨rfl, fun u => ?_⟩
      simp only [State.goto]
      split
      · rename_i hu
        subst hu
        rw [hpc]
        rfl
      · rfl
    · simp at h
  | call_write t a =>
    simp only [stepRunning] at h
    split at h
    · rename_i hpc
      simp only [Option.some.injEq] at h
      subst h
      refine Or.inl ⟨rfl, fun u => ?_⟩
      simp only [State.goto]
      split
      · rename_i hu
        subst hu
        rw [hpc]
        rfl
      · rfl
    · simp at h
  | run t =>
    simp only [stepRunning, runThread] at h
    split at h
    · simp at h
    · rename_i a hpc
      split at h
      all_goals
        simp only [Option.some.injEq] at h
        subst h
        refine Or.inl ⟨rfl, fun u => ?_⟩
        simp only [State.goto]
        split
        · rename_i hu
          subst hu
          rw [hpc]
          rfl
        · rfl
    · rename_i a hpc
      split at h
      · simp at h
      · rename_i l hl
        simp only [Option.some.injEq] at h
        subst h
        refine Or.inr (Or.inl ⟨t, ?_, ?_, fun u => ?_⟩)
        · simp only [IMutex.Lock] at hl
          split at hl
          · simp at hl
          · rename_i hlk
            simpa using hlk
        · simp only [IMutex.Lock] at hl
          split at hl
          · simp at hl
          · simp only [Option.some.injEq] at hl
            subst hl
            rfl
        · simp only [State.goto]
          split
          · rfl
          · rfl
    · rename_i a hpc
      have hlk : (s.serial.ArmReceive a.buffer a.offset a.count).state._read_lock =
          s.serial._read_lock := by
        cases hd : s.serial._uart_handle.hdmarx <;>
          simp [Serial.ArmReceive, HAL_UARTEx_ReceiveToIdle_DMA, hd]
      split at h
      · simp only [Option.some.injEq] at h
        subst h
        exact Or.inl ⟨hlk, fun u => rfl⟩
      · simp only [Option.some.injEq] at h
        subst h
        refine Or.inl ⟨hlk, fun u => ?_⟩
        simp only [State.goto]
        split
        · rename_i hu
          subst hu
          rw [hpc]
          rfl
        · rfl
    · rename_i a hpc
      split at h
      · simp at h
      · simp only [Option.some.injEq] at h
        subst h
        refine Or.inl ⟨rfl, fun u => ?_⟩
        simp only [State.goto]
        split
        · rename_i hu
          subst hu
          rw [hpc]
          rfl
        · rfl
    · rename_i a hpc
      split at h
      · simp only [Option.some.injEq] at h
        subst h
        refine Or.inr (Or.inr ⟨t, by rw [hpc]; rfl, rfl, fun u => ?_⟩)
        simp only [State.goto]
        split
        · rfl
        · rfl
      · simp only [Option.some.injEq] at h
        subst h
        refine Or.inl ⟨rfl, fun u => ?_⟩
        simp only [State.goto]
        split
        · rename_i hu
          subst hu
          rw [hpc]
          rfl
        · rfl
    · rename_i a hpc
      split at h
      · simp at h
      · simp only [Option.some.injEq] at h
        subst h
        refine Or.inl ⟨rfl, fun u => ?_⟩
        simp only [State.goto]
        split
        · rename_i hu
          subst hu
          rw [hpc]
          rfl
        · rfl
    · rename_i a hpc
      simp only [Option.some.injEq] at h
      subst h
      refine Or.inl ⟨rfl, fun u => ?_⟩
      simp only [State.goto]
      split
      · rename_i hu
        subst hu
        rw [hpc]
        rfl
      · rfl
  | receive_event pos =>
    simp only [stepRunning, Option.some.injEq] at h
    subst h
    exact Or.inl ⟨rfl, fun u => rfl⟩
  | send_complete =>
    simp only [stepRunning] at h
    split at h
    · simp at h
    · simp only [Option.some.injEq] at h
      subst h
      exact Or.inl ⟨rfl, fun u => rfl⟩

/-- Every step keeps the read-side invariant. -/
theorem step_preserves_ReadInv (s s1 : State) (e : Event) (hinv : ReadInv s)
    (h : step s e = some s1) : ReadInv s1 := by
  obtain ⟨hfree, huniq⟩ := hinv
  rcases step_read_effect s s1 e h with ⟨hl, hp⟩ | ⟨t, hl0, hl1, hp⟩ | ⟨t, ht, hl1, hp⟩
  · refine ⟨fun hf u => ?_, fun u v hu hv => ?_⟩
    · rw [hp]
      exact hfree (by rw [← hl]; exact hf) u
    · rw [hp] at hu hv
      exact huniq u v hu hv
  · refine ⟨fun hf => ?_, fun u v hu hv => ?_⟩
    · rw [hl1] at hf
      cases hf
    · rw [hp] at hu hv
      have hnone := hfree hl0
      by_cases h1 : u = t
      · by_cases h2 : v = t
        · rw [h1, h2]
        · rw [if_neg h2, hnone v] at hv
          cases hv
      · rw [if_neg h1, hnone u] at hu
        cases hu
  · refine ⟨fun _ u => ?_, fun u v hu hv => ?_⟩
    · rw [hp]
      by_cases h1 : u = t
      · rw [if_pos h1]
      · rw [if_neg h1]
        cases hh : (s.pc u).holds_read_lock with
        | false => rfl
        | true => exact absurd (huniq u t hh ht) h1
    · rw [hp] at hu hv
      by_cases h1 : u = t
      · rw [if_pos h1] at hu
        cases hu
      · by_cases h2 : v = t
        · rw [if_pos h2] at hv
          cases hv
        · rw [if_neg h1] at hu
          rw [if_neg h2] at hv
          exact huniq u v hu hv

/-- Every run keeps the read-side invariant. -/
theorem run_preserves_ReadInv (evs : List Event) :
    ∀ (s s1 : State), ReadInv s → run s evs = some s1 → ReadInv s1 := by
  induction evs with
  | nil =>
    intro s s1 hinv h
    simp only [run, Option.some.injEq] at h
    subst h
    exact hinv
  | cons e es ih =>
    intro s s1 hinv h
    simp only [run] at h
    cases hstep : step s e with
    | none => simp [hstep] at h
    | some s2 =>
      simp only [hstep, Option.some_bind] at h
      exact ih s2 s1 (step_preserves_ReadInv s s2 e hinv hstep) h

/-- With all threads outside any call the read-side invariant holds. -/
theorem ReadInv_init (serial : Serial) : ReadInv (init serial) :=
  ⟨fun _ _ => rfl, fun t u ht _ => by simp [init, Pc.holds_read_lock] at ht⟩

/-- C6: in every interleaving of threads calling `Read` (and `Write`) with
the interrupt callbacks, at most one thread is between taking the read lock
and returning from `Read`; so while a thread is at its arm sequence (arming
the receive and nulling the half-transfer callback), no other thread is inside
the locked arm-wait-retry loop, and the lock is held. -/
theorem Read_mutual_exclusion (serial : Serial) (evs : List Event) (s : State)
    (h : run (init serial) evs = some s) :
    (∀ t u, (s.pc t).holds_read_lock = true → (s.pc u).holds_read_lock = true → t = u) ∧
    (∀ t u a, s.pc u = Pc.read_arm a → t ≠ u → (s.pc t).holds_read_lock = false) ∧
    (∀ t, (s.pc t).holds_read_lock = true → s.serial._read_lock.locked = true) := by
  obtain ⟨hfree, huniq⟩ := run_preserves_ReadInv evs _ _ (ReadInv_init serial) h
  refine ⟨huniq, fun t u a hu hne => ?_, fun t ht => ?_⟩
  · cases hh : (s.pc t).holds_read_lock with
    | false => rfl
    | true => exact absurd (huniq t u hh (by rw [hu]; rfl)) hne
  · cases hl : s.serial._read_lock.locked with
    | true => rfl
    | false =>
      rw [hfree hl t] at ht
      cases ht

/-- Moving a thread between two statements on the same side of the `Acquire`
of `Write` changes nobody's side. -/
theorem goto_passed_same (s : State) (t : Nat) (p : Pc)
    (h : p.passed_send_acquire = (s.pc t).passed_send_acquire) (u : Nat) :
    ((s.goto t p).pc u).passed_send_acquire = (s.pc u).passed_send_acquire := by
  simp only [State.goto]
  split
  · rename_i hu
    subst hu
    exact h
  · rfl

/-- How a step acts on the send side: not at all; or thread `t` takes the
signal; or thread `t`, who took it, starts its transmit; or the transmit in
flight is reported complete. -/
theorem step_write_effect (s s1 : State) (e : Event) (h : step s e = some s1) :
    (s1.serial._send_complete_signal = s.serial._send_complete_signal ∧
      s1.tx_in_flight = s.tx_in_flight ∧
      (∀ u, (s1.pc u).passed_send_acquire = (s.pc u).passed_send_acquire) ∧
      passedOrder s1.log = passedOrder s.log ∧ armedOrder s1.log = armedOrder s.log) ∨
    (∃ t, s.serial._send_complete_signal.signalled = true ∧
      s1.serial._send_complete_signal.signalled = false ∧
      s1.tx_in_flight = s.tx_in_flight ∧
      (∀ u, (s1.pc u).passed_send_acquire =
        (if u = t then true else (s.pc u).passed_send_acquire)) ∧
      passedOrder s1.log = passedOrder s.log ++ [t] ∧ armedOrder s1.log = armedOrder s.log) ∨
    (∃ t, (s.pc t).passed_send_acquire = true ∧
      s1.serial._send_complete_signal = s.serial._send_complete_signal ∧
      s1.tx_in_flight = s.tx_in_flight + 1 ∧
      (∀ u, (s1.pc u).passed_send_acquire =
        (if u = t then false else (s.pc u).passed_send_acquire)) ∧
      passedOrder s1.log = passedOrder s.log ∧ armedOrder s1.log = armedOrder s.log ++ [t]) ∨
    (0 < s.tx_in_flight ∧ s1.tx_in_flight = s.tx_in_flight - 1 ∧
      s1.serial._send_complete_signal.signalled = true ∧
      (∀ u, (s1.pc u).passed_send_acquire = (s.pc u).passed_send_acquire) ∧
      passedOrder s1.log = passedOrder s.log ∧ armedOrder s1.log = armedOrder s.log) := by
  replace h := step_running s s1 e h
  cases e with
  | call_read t a =>
    simp only [stepRunning] at h
    split at h
    · rename_i hpc
      simp only [Option.some.injEq] at h
      subst h
      exact Or.inl ⟨rfl, rfl, goto_passed_same s t _ (by rw [hpc]; rfl), rfl, rfl⟩
    · simp at h
  | call_write t a =>
    simp only [stepRunning] at h
    split at h
    · rename_i hpc
      simp only [Option.some.injEq] at h
      subst h
      exact Or.inl ⟨rfl, rfl, goto_passed_same s t _ (by rw [hpc]; rfl), rfl, rfl⟩
    · simp at h
  | run t =>
    simp only [stepRunning, runThread] at h
    split at h
    · simp at h
    · rename_i a hpc
      split at h
      · simp only [Option.some.injEq] at h
        subst h
        exact Or.inl ⟨rfl, rfl, goto_passed_same s t _ (by rw [hpc]; rfl),
          by simp [passedOrder, Entry.passedThread], by simp [armedOrder, Entry.armedThread]⟩
      · simp only [Option.some.injEq] at h
        subst h
        exact Or.inl ⟨rfl, rfl, goto_passed_same s t _ (by rw [hpc]; rfl), rfl, rfl⟩
    · rename_i a hpc
      split at h
      · simp at h
      · simp only [Option.some.injEq] at h
        subst h
        exact Or.inl ⟨rfl, rfl, goto_passed_same s t _ (by rw [hpc]; rfl),
          by simp [passedOrder, Entry.passedThread], by simp [armedOrder, Entry.armedThread]⟩
    · rename_i a hpc
      have hsig : (s.serial.ArmReceive a.buffer a.offset a.count).state._send_complete_signal =
          s.serial._send_complete_signal := by
        cases hd : s.serial._uart_handle.hdmarx <;>
          simp [Serial.ArmReceive, HAL_UARTEx_ReceiveToIdle_DMA, hd]
      obtain ⟨hP, hA⟩ := ArmReceive_trace_orders s.serial a.buffer a.offset a.count t
      split at h
      · simp only [Option.some.injEq] at h
        subst h
        refine Or.inl ⟨hsig, rfl, fun u => rfl, ?_, ?_⟩
        · show passedOrder (s.log ++ _) = _
          unfold passedOrder at hP ⊢
          rw [List.filterMap_append, hP, List.append_nil]
        · show armedOrder (s.log ++ _) = _
          unfold armedOrder at hA ⊢
          rw [List.filterMap_append, hA, List.append_nil]
      · simp only [Option.some.injEq] at h
        subst h
        refine Or.inl ⟨hsig, rfl, goto_passed_same s t _ (by rw [hpc]; rfl), ?_, ?_⟩
        · show passedOrder (s.log ++ _) = _
          unfold passedOrder at hP ⊢
          rw [List.filterMap_append, hP, List.append_nil]
        · show armedOrder (s.log ++ _) = _
          unfold armedOrder at hA ⊢
          rw [List.filterMap_append, hA, List.append_nil]
    · rename_i a hpc
      split at h
      · simp at h
      · simp only [Option.some.injEq] at h
        subst h
        exact Or.inl ⟨rfl, rfl, goto_passed_same s t _ (by rw [hpc]; rfl),
          by simp [passedOrder, Entry.passedThread], by simp [armedOrder, Entry.armedThread]⟩
    · rename_i a hpc
      split at h
      · simp only [Option.some.injEq] at h
        subst h
        exact Or.inl ⟨rfl, rfl, goto_passed_same s t _ (by rw [hpc]; rfl),
          by simp [passedOrder, Entry.passedThread], by simp [armedOrder, Entry.armedThread]⟩
      · simp only [Option.some.injEq] at h
        subst h
        exact Or.inl ⟨rfl, rfl, goto_passed_same s t _ (by rw [hpc]; rfl), rfl, rfl⟩
    · rename_i a hpc
      split at h
      · simp at h
      · rename_i sem hsem
        simp only [Option.some.injEq] at h
        subst h
        simp only [IBinarySemaphore.Acquire] at hsem
        split at hsem
        · rename_i hsig
          simp only [Option.some.injEq] at hsem
          subst hsem
          refine Or.inr (Or.inl ⟨t, hsig, rfl, rfl, fun u => ?_, ?_, ?_⟩)
          · simp only [State.goto]
            split <;> rfl
          · simp [passedOrder, Entry.passedThread]
          · simp [armedOrder, Entry.armedThread]
        · simp at hsem
    · rename_i a hpc
      simp only [Option.some.injEq] at h
      subst h
      refine Or.inr (Or.inr (Or.inl ⟨t, by rw [hpc]; rfl, rfl, rfl, fun u => ?_, ?_, ?_⟩))
      · simp only [State.goto]
        split <;> rfl
      · simp [passedOrder, Entry.passedThread]
      · simp [armedOrder, Entry.armedThread]
  | receive_event pos =>
    simp only [stepRunning, Option.some.injEq] at h
    subst h
    exact Or.inl ⟨rfl, rfl, fun u => rfl,
      by simp [passedOrder, Entry.passedThread, Serial.OnReceiveEventCallback],
      by simp [armedOrder, Entry.armedThread, Serial.OnReceiveEventCallback]⟩
  | send_complete =>
    simp only [stepRunning] at h
    split at h
    · simp at h
    · rename_i hne
      simp only [Option.some.injEq] at h
      subst h
      exact Or.inr (Or.inr (Or.inr ⟨Nat.pos_of_ne_zero hne, rfl, rfl, fun u => rfl,
        by simp [passedOrder, Entry.passedThread, Serial.OnSendCompleteCallback],
        by simp [armedOrder, Entry.armedThread, Serial.OnSendCompleteCallback]⟩))

/-- Every step keeps the send-side invariant. -/
theorem step_preserves_WriteInv (s s1 : State) (e : Event) (hinv : WriteInv s)
    (h : step s e = some s1) : WriteInv s1 := by
  rcases step_write_effect s s1 e h with
    ⟨hs, htx, hp, hP, hA⟩ | ⟨t, hs0, hs1, htx, hp, hP, hA⟩ |
    ⟨t, ht, hs, htx, hp, hP, hA⟩ | ⟨hpos, htx, hs1, hp, hP, hA⟩
  · -- the step does not touch the send side
    rcases hinv with ⟨i1, i2, i3, i4⟩ | ⟨i1, i2, v, i3, i4, i5⟩ | ⟨i1, i2, i3, i4⟩
    · exact Or.inl ⟨by rw [hs]; exact i1, by rw [htx]; exact i2,
        fun u => by rw [hp]; exact i3 u, by rw [hP, hA]; exact i4⟩
    · exact Or.inr (Or.inl ⟨by rw [hs]; exact i1, by rw [htx]; exact i2, v,
        by rw [hp]; exact i3, fun u hu => i4 u (by rw [← hp]; exact hu),
        by rw [hP, hA]; exact i5⟩)
    · exact Or.inr (Or.inr ⟨by rw [hs]; exact i1, by rw [htx]; exact i2,
        fun u => by rw [hp]; exact i3 u, by rw [hP, hA]; exact i4⟩)
  · -- thread t takes the signal
    rcases hinv with ⟨_, i2, i3, i4⟩ | ⟨i1, _⟩ | ⟨i1, _⟩
    · refine Or.inr (Or.inl ⟨hs1, by rw [htx]; exact i2, t, ?_, fun u hu => ?_, ?_⟩)
      · rw [hp, if_pos rfl]
      · rw [hp] at hu
        by_cases hut : u = t
        · exact hut
        · rw [if_neg hut, i3 u] at hu
          cases hu
      · rw [hP, hA, i4]
    · rw [i1] at hs0
      cases hs0
    · rw [i1] at hs0
      cases hs0
  · -- thread t starts its transmit
    rcases hinv with ⟨_, _, i3, _⟩ | ⟨i1, i2, v, i3, i4, i5⟩ | ⟨_, _, i3, _⟩
    · rw [i3 t] at ht
      cases ht
    · have htv : t = v := i4 t ht
      subst htv
      refine Or.inr (Or.inr ⟨by rw [hs]; exact i1, by rw [htx, i2], fun u => ?_, ?_⟩)
      · rw [hp]
        by_cases hut : u = t
        · rw [if_pos hut]
        · rw [if_neg hut]
          cases hh : (s.pc u).passed_send_acquire with
          | false => rfl
          | true => exact absurd (i4 u hh) hut
      · rw [hP, hA, i5]
    · rw [i3 t] at ht
      cases ht
  · -- the transmit in flight is reported complete
    rcases hinv with ⟨_, i2, _⟩ | ⟨_, i2, _⟩ | ⟨_, i2, i3, i4⟩
    · omega
    · omega
    · exact Or.inl ⟨hs1, by rw [htx, i2], fun u => by rw [hp]; exact i3 u,
        by rw [hP, hA]; exact i4⟩

/-- Every run keeps the send-side invariant. -/
theorem run_preserves_WriteInv (evs : List Event) :
    ∀ (s s1 : State), WriteInv s → run s evs = some s1 → WriteInv s1 := by
  induction evs with
  | nil =>
    intro s s1 hinv h
    simp only [run, Option.some.injEq] at h
    subst h
    exact hinv
  | cons e es ih =>
    intro s s1 hinv h
    simp only [run] at h
    cases hstep : step s e with
    | none => simp [hstep] at h
    | some s2 =>
      simp only [hstep, Option.some_bind] at h
      exact ih s2 s1 (step_preserves_WriteInv s s2 e hinv hstep) h

/-- After `Open` on the fresh driver the send side is in its first phase. -/
theorem WriteInv_init (options : SerialOptions) : WriteInv (init (Serial.opened options)) :=
  Or.inl ⟨rfl, rfl, fun _ => rfl, rfl⟩

/-- C5: in every execution that starts with `Open` on the fresh driver and
interleaves threads calling `Write` (and `Read`) with the interrupt callbacks,
the send-complete callback firing only for a transmit in flight: at most one
transmit is in flight; a thread that has passed `Acquire` and is about to
start its transmit finds none in flight and is the only such thread; while the
semaphore is signalled none is in flight; and the transmits were started in
the order in which the `Write` calls passed `Acquire`, at most the last of
these still to start. -/
theorem Write_serialized (options : SerialOptions) (evs : List Event) (s : State)
    (h : run (init (Serial.opened options)) evs = some s) :
    s.tx_in_flight ≤ 1 ∧
    (∀ t a, s.pc t = Pc.write_transmit a →
      s.tx_in_flight = 0 ∧ ∀ u b, s.pc u = Pc.write_transmit b → u = t) ∧
    (s.serial._send_complete_signal.signalled = true → s.tx_in_flight = 0) ∧
    armedOrder s.log <+: passedOrder s.log ∧
    (passedOrder s.log).length ≤ (armedOrder s.log).length + 1 := by
  have hinv := run_preserves_WriteInv evs _ _ (WriteInv_init options) h
  rcases hinv with ⟨i1, i2, i3, i4⟩ | ⟨i1, i2, v, i3, i4, i5⟩ | ⟨i1, i2, i3, i4⟩
  · refine ⟨by omega, fun t a ht => ?_, fun _ => i2, by rw [i4], by rw [i4]; omega⟩
    have := i3 t
    rw [ht] at this
    cases this
  · refine ⟨by omega, fun t a ht => ⟨i2, fun u b hu => ?_⟩, fun _ => i2,
      by rw [i5]; exact List.prefix_append _ _, by rw [i5]; simp⟩
    rw [i4 u (by rw [hu]; rfl), i4 t (by rw [ht]; rfl)]
  · refine ⟨by omega, fun t a ht => ?_, fun hs => ?_, by rw [i4], by rw [i4]; omega⟩
    · have := i3 t
      rw [ht] at this
      cases this
    · rw [i1] at hs
      cases hs


theorem Read_mutual_exclusion_witness :
    ∃ s, run (init (Serial.opened ⟨115200, 8, 0, 1⟩)) twoReaders = some s ∧
      s.pc 1 = Pc.read_arm ⟨8192, 0, 10⟩ ∧ (s.pc 0).holds_read_lock = false :=
  ⟨_, rfl, rfl,
    (Read_mutual_exclusion (Serial.opened ⟨115200, 8, 0, 1⟩) twoReaders _ rfl).2.1 0 1
      ⟨8192, 0, 10⟩ rfl (by decide)⟩

theorem Write_serialized_witness :
    ∃ s, run (init (Serial.opened ⟨115200, 8, 0, 1⟩)) twoWriters = some s ∧
      s.tx_in_flight ≤ 1 ∧ armedOrder s.log <+: passedOrder s.log :=
  ⟨_, rfl, (Write_serialized ⟨115200, 8, 0, 1⟩ twoWriters _ rfl).1,
    (Write_serialized ⟨115200, 8, 0, 1⟩ twoWriters _ rfl).2.2.2.1⟩

end Sched

end hal
